import Mathlib

/-!
Verification of the block lifecycle engine of the Blockchain-Decentralized-DB
repository (Node.js backend under `backend/src`): a shallow embedding of the
canonical hash input construction (`utils/cryptoUtils.js`), the chain store
(`services/blockchain.js`, `database/db.js`), the two-phase commit route
(`blockchain-validator.js`, `router.post('/commit')`), the periodic verifier
(`services/verifier.js`) and the peer chain-replacement logic, together with
theorems settling the specification's claims about them.

Bytes are modelled as `Nat` values below 256, machine words as `Nat` reduced
modulo `2 ^ 32`, binary buffers as `List Nat`, SQL rows as Lean structures and
the Postgres store as a list of rows; JavaScript exceptions are explicit
result constructors.
-/

/-! ## Byte and hex helpers (Buffer.toString('hex'), '0'.repeat, utf8 bytes) -/

/-- The lowercase hex alphabet, as in Node's `Buffer.prototype.toString('hex')`. -/
def hexAlphabet : List Char := "0123456789abcdef".data

/-- One lowercase hex digit for a value below 16. -/
def hexDigit (n : Nat) : Char := hexAlphabet.getD n ('0')

/-- Two lowercase hex digits for one byte. -/
def byteToHex (b : Nat) : String := String.mk [hexDigit (b / 16 % 16), hexDigit (b % 16)]

/-- `Buffer.from(bytes).toString('hex')`: lowercase hex of a byte buffer. -/
def bytesToHexLower (bs : List Nat) : String := String.join (bs.map byteToHex)

/-- `'0'.repeat(n)`: the string of `n` zero characters. -/
def zeros (n : Nat) : String := String.mk (List.replicate n ('0'))

/-- UTF-8 bytes of an ASCII string (all strings hashed by the node - hex,
decimal renderings, ISO timestamps, UUIDs - are ASCII, where UTF-8 is the
identity on code points). -/
def asciiBytes (s : String) : List Nat := s.data.map Char.toNat

/-! ## SHA-256 over byte lists, words as `Nat` modulo `2 ^ 32`
(embeds Node's `crypto.createHash('sha256')`). -/

/-- Reduce to a 32-bit word. -/
def mod32 (n : Nat) : Nat := n % 4294967296

/-- 32-bit rotate right. -/
def rotr32 (n x : Nat) : Nat := mod32 ((x >>> n) ||| (x <<< (32 - n)))

/-- SHA-256 big sigma 0. -/
def sumSig0 (x : Nat) : Nat := rotr32 2 x ^^^ rotr32 13 x ^^^ rotr32 22 x

/-- SHA-256 big sigma 1. -/
def sumSig1 (x : Nat) : Nat := rotr32 6 x ^^^ rotr32 11 x ^^^ rotr32 25 x

/-- SHA-256 small sigma 0. -/
def schedSig0 (x : Nat) : Nat := rotr32 7 x ^^^ rotr32 18 x ^^^ (x >>> 3)

/-- SHA-256 small sigma 1. -/
def schedSig1 (x : Nat) : Nat := rotr32 17 x ^^^ rotr32 19 x ^^^ (x >>> 10)

/-- SHA-256 choice function. -/
def chWord (x y z : Nat) : Nat := (x &&& y) ^^^ ((x ^^^ 4294967295) &&& z)

/-- SHA-256 majority function. -/
def majWord (x y z : Nat) : Nat := (x &&& y) ^^^ (x &&& z) ^^^ (y &&& z)

/-- The 64 SHA-256 round constants of FIPS 180-4, in decimal. -/
def sha256K : Array Nat := #[
  1116352408, 1899447441, 3049323471, 3921009573,
  961987163, 1508970993, 2453635748, 2870763221,
  3624381080, 310598401, 607225278, 1426881987,
  1925078388, 2162078206, 2614888103, 3248222580,
  3835390401, 4022224774, 264347078, 604807628,
  770255983, 1249150122, 1555081692, 1996064986,
  2554220882, 2821834349, 2952996808, 3210313671,
  3336571891, 3584528711, 113926993, 338241895,
  666307205, 773529912, 1294757372, 1396182291,
  1695183700, 1986661051, 2177026350, 2456956037,
  2730485921, 2820302411, 3259730800, 3345764771,
  3516065817, 3600352804, 4094571909, 275423344,
  430227734, 506948616, 659060556, 883997877,
  958139571, 1322822218, 1537002063, 1747873779,
  1955562222, 2024104815, 2227730452, 2361852424,
  2428436474, 2756734187, 3204031479, 3329325298]

/-- The SHA-256 initial hash state, in decimal. -/
def sha256H0 : List Nat :=
  [1779033703, 3144134277, 1013904242, 2773480762,
   1359893119, 2600822924, 528734635, 1541459225]

/-- Extend a 16-word message block to the 64-word schedule; `n` counts the
words still to append. -/
def extendSchedule (w : Array Nat) : Nat → Array Nat
  | 0 => w
  | n + 1 =>
    let t := w.size
    let nw := mod32 (schedSig1 (w.getD (t - 2) 0) + w.getD (t - 7) 0 +
                     schedSig0 (w.getD (t - 15) 0) + w.getD (t - 16) 0)
    extendSchedule (w.push nw) n

/-- One SHA-256 round on the working state. -/
def sha256Round (w : Array Nat)
    (s : Nat × Nat × Nat × Nat × Nat × Nat × Nat × Nat) (i : Nat) :
    Nat × Nat × Nat × Nat × Nat × Nat × Nat × Nat :=
  let (a, b, c, d, e, f, g, h) := s
  let t1 := mod32 (h + sumSig1 e + chWord e f g + sha256K.getD i 0 + w.getD i 0)
  let t2 := mod32 (sumSig0 a + majWord a b c)
  (mod32 (t1 + t2), a, b, c, mod32 (d + t1), e, f, g)

/-- Compress one 512-bit block (given as its 16 words) into the hash state. -/
def sha256Block (h : List Nat) (blockWords : Array Nat) : List Nat :=
  let w := extendSchedule blockWords 48
  let h0 := h.getD 0 0
  let h1 := h.getD 1 0
  let h2 := h.getD 2 0
  let h3 := h.getD 3 0
  let h4 := h.getD 4 0
  let h5 := h.getD 5 0
  let h6 := h.getD 6 0
  let h7 := h.getD 7 0
  let (a, b, c, d, e, f, g, hh) :=
    (List.range 64).foldl (sha256Round w) (h0, h1, h2, h3, h4, h5, h6, h7)
  [mod32 (h0 + a), mod32 (h1 + b), mod32 (h2 + c), mod32 (h3 + d),
   mod32 (h4 + e), mod32 (h5 + f), mod32 (h6 + g), mod32 (h7 + hh)]

/-- The 8-byte big-endian encoding of the bit length. -/
def lenBytes8 (n : Nat) : List Nat :=
  [(n >>> 56) % 256, (n >>> 48) % 256, (n >>> 40) % 256, (n >>> 32) % 256,
   (n >>> 24) % 256, (n >>> 16) % 256, (n >>> 8) % 256, n % 256]

/-- SHA-256 padding: append `0x80`, zeros to 56 mod 64, then the bit length. -/
def sha256Pad (ms : List Nat) : List Nat :=
  let z := (119 - ms.length % 64) % 64
  ms ++ 128 :: List.replicate z 0 ++ lenBytes8 (ms.length * 8)

/-- Group bytes into big-endian 32-bit words. -/
def wordsOfBytes : List Nat → List Nat
  | a :: b :: c :: d :: rest => (a * 16777216 + b * 65536 + c * 256 + d) :: wordsOfBytes rest
  | _ => []

/-- Split a byte list into 64-byte chunks (fuelled; the input is padded to a
multiple of 64 bytes). -/
def chunks64Aux : Nat → List Nat → List (List Nat)
  | 0, _ => []
  | _, [] => []
  | fuel + 1, xs => xs.take 64 :: chunks64Aux fuel (xs.drop 64)

/-- Split a byte list into 64-byte chunks. -/
def chunks64 (xs : List Nat) : List (List Nat) := chunks64Aux (xs.length + 1) xs

/-- SHA-256 of a byte list, as its 32 digest bytes. -/
def sha256 (ms : List Nat) : List Nat :=
  let blocks := chunks64 (sha256Pad ms)
  let hFinal := blocks.foldl (fun h blk => sha256Block h (Array.mk (wordsOfBytes blk))) sha256H0
  hFinal.foldr (fun w acc =>
    (w >>> 24) % 256 :: (w >>> 16) % 256 :: (w >>> 8) % 256 :: w % 256 :: acc) []

/-! ## Canonical hash input (`utils/cryptoUtils.js` and the stale copy in
`blockchain-validator.js`) -/

/-- The fields of a block candidate that enter the hash input, as
`buildHashInput` receives them: `previous_hash` and `creator_id` may be null,
binary fields are buffers, `created_at` is carried as the ISO-8601 string the
JavaScript `Date`/string branch produces. -/
structure HashBlockData where
  previous_hash : Option String
  encrypted_data : List Nat
  data_iv : List Nat
  encrypted_data_key : List Nat
  nonce : Nat
  created_at : String
  creator_id : Option String
  difficulty : Nat
deriving DecidableEq

/-- JavaScript `x || d` on a nullable string: null, undefined and the empty
string are falsy. -/
def jsOrDefault (o : Option String) (d : String) : String :=
  match o with
  | none => d
  | some s => if s = "" then d else s

/-- `Array.prototype.join` renders a null element as the empty string. -/
def joinElem (o : Option String) : String := o.getD ("")

namespace CryptoUtils

/-- `CryptoUtils.buildHashInput` (backend `utils/cryptoUtils.js` lines 96-109):
the pipe-joined hash input, with the 64-zero genesis sentinel substituted for a
missing `previous_hash`. -/
def buildHashInput (b : HashBlockData) : String :=
  String.intercalate ("|") [
    jsOrDefault b.previous_hash (zeros 64),
    bytesToHexLower b.encrypted_data,
    bytesToHexLower b.data_iv,
    bytesToHexLower b.encrypted_data_key,
    toString b.nonce,
    b.created_at,
    joinElem b.creator_id,
    toString b.difficulty]

/-- `CryptoUtils.calculateHash`: lowercase-hex SHA-256 digest of the UTF-8
bytes of a string (`crypto.createHash('sha256').update(data).digest('hex')`). -/
def calculateHash (data : String) : String := bytesToHexLower (sha256 (asciiBytes data))

/-- `CryptoUtils.timeSafeEqual` (lines 146-155): UTF-8 encode both strings,
return false on a length mismatch, otherwise `crypto.timingSafeEqual`. -/
def timeSafeEqual (a b : String) : Bool :=
  if (asciiBytes a).length ≠ (asciiBytes b).length then false
  else asciiBytes a == asciiBytes b

end CryptoUtils

/-- The outcome of a JavaScript call that may throw. -/
inductive JsResult (α : Type) where
  | ok (a : α)
  | thrown (msg : String)
deriving DecidableEq

/-- The behaviour of Node's `crypto.createVerify('SHA256')` pipeline on a
public key PEM, the signed data and a signature buffer: a boolean, or a thrown
error (malformed PEM, malformed signature, ...). Left abstract - the theorems
quantify over every behaviour. -/
abbrev RawVerify := String → String → List Nat → JsResult Bool

/-- `CryptoUtils.verifySignature` (lines 81-90): run the raw verifier inside
try/catch; any thrown error is logged and turned into `false`. -/
def CryptoUtils.verifySignature (raw : RawVerify) (publicKeyPem data : String)
    (sig : List Nat) : Bool :=
  match raw publicKeyPem data sig with
  | .ok b => b
  | .thrown _ => false

namespace BlockchainValidator

/-- `BlockchainValidator.buildHashInput` (`blockchain-validator.js` lines
171-182): the same eight fields, but joined with `join('')` - no delimiter -
and with a missing `previous_hash` rendered as the empty string, not the
genesis sentinel. -/
def buildHashInput (b : HashBlockData) : String :=
  String.intercalate ("") [
    jsOrDefault b.previous_hash (""),
    bytesToHexLower b.encrypted_data,
    bytesToHexLower b.data_iv,
    bytesToHexLower b.encrypted_data_key,
    toString b.nonce,
    b.created_at,
    joinElem b.creator_id,
    toString b.difficulty]

end BlockchainValidator

/-- The canonical hash input exactly as §4.2 of the specification words it:
the single ASCII string joining, with the literal delimiter `'|'` and in this
order, previous_hash (or the 64-character `'0'` genesis sentinel when
previous_hash is null), lowercase hex of encrypted_data, lowercase hex of
data_iv, lowercase hex of encrypted_data_key, the decimal string of nonce,
created_at as ISO-8601, creator_id's textual form (empty string if absent),
and the decimal string of difficulty. -/
def specCanonicalHashInput (b : HashBlockData) : String :=
  String.intercalate ("|") [
    match b.previous_hash with
    | none => zeros 64
    | some h => h,
    bytesToHexLower b.encrypted_data,
    bytesToHexLower b.data_iv,
    bytesToHexLower b.encrypted_data_key,
    toString b.nonce,
    b.created_at,
    b.creator_id.getD (""),
    toString b.difficulty]

/-! ## The chain store (`database/db.js`, `services/blockchain.js`) -/

/-- A row of `blockchain.blocks`. Binary columns are byte lists; `created_at`
is the TIMESTAMPTZ value as epoch milliseconds; `verified` defaults to false
and `verified_at` to null on insert. -/
structure Row where
  block_id : String
  block_number : Nat
  creator_id : Option String
  previous_hash : Option String
  block_hash : String
  nonce : Nat
  difficulty : Nat
  encrypted_data : List Nat
  data_iv : List Nat
  encrypted_data_key : List Nat
  data_size : Nat
  signature : List Nat
  created_at : Nat
  mining_duration_ms : Option Nat
  verified : Bool
  verified_at : Option Nat
deriving DecidableEq

/-- A row of `blockchain.creators`, restricted to the columns the block
lifecycle reads. -/
structure Creator where
  creator_id : String
  display_name : String
  public_key_pem : String
  is_active : Bool
deriving DecidableEq

/-- The `valid_genesis_block` CHECK constraint: `previous_hash` null exactly
for `block_number = 1`. -/
def genesisShape (r : Row) : Bool :=
  match r.previous_hash with
  | none => decide (r.block_number = 1)
  | some _ => decide (r.block_number > 1)

/-- The remaining per-row CHECK constraints of `blockchain.blocks`:
`difficulty` between 1 and 10, `data_size > 0`, and the genesis shape. -/
def rowChecks (r : Row) : Bool :=
  decide (1 ≤ r.difficulty) && decide (r.difficulty ≤ 10) && decide (0 < r.data_size) && genesisShape r

/-- Does a row with this `block_hash` exist (the UNIQUE conflict key)? -/
def hashExists (store : List Row) (h : String) : Bool :=
  store.any (fun r => r.block_hash == h)

/-- Does a row with this `block_number` exist (BIGSERIAL UNIQUE)? -/
def numberExists (store : List Row) (n : Nat) : Bool :=
  store.any (fun r => r.block_number == n)

/-- `SELECT ... WHERE block_hash = $1 LIMIT 1`. -/
def findByHash (store : List Row) (h : String) : Option Row :=
  store.find? (fun r => r.block_hash == h)

/-- `ORDER BY block_number ASC` over a set of rows. -/
def sortByNumber (l : List Row) : List Row :=
  l.insertionSort (fun a b => a.block_number ≤ b.block_number)

/-- The `created_at` order on rows. -/
def createdLe (a b : Row) : Prop := a.created_at ≤ b.created_at

instance : DecidableRel createdLe := fun a b => Nat.decLe a.created_at b.created_at

instance : IsTotal Row createdLe := ⟨fun a b => Nat.le_total a.created_at b.created_at⟩

instance : IsTrans Row createdLe := ⟨fun _ _ _ h1 h2 => Nat.le_trans h1 h2⟩

/-- `ORDER BY created_at ASC` over a set of rows. -/
def sortByCreated (l : List Row) : List Row :=
  l.insertionSort createdLe

/-- The node's chain state: the `blockchain.blocks` table and the in-memory
`this.chain` cache of the `Blockchain` service. -/
structure NodeState where
  store : List Row
  chain : List Row
deriving DecidableEq

/-- The outcome of the `SELECT * FROM blockchain.blocks ORDER BY block_number`
query issued by `loadChainFromDB`: its rows, or an infrastructure error. -/
inductive DbResult (α : Type) where
  | ok (a : α)
  | error (msg : String)
deriving DecidableEq

namespace Blockchain

/-- `Blockchain.loadChainFromDB` (`services/blockchain.js` lines 11-34),
applied to the outcome of its query: on success the in-memory chain becomes
the returned rows; on any error the catch block logs and resets the chain to
the empty array. -/
def loadChainFromDB (st : NodeState) (res : DbResult (List Row)) : NodeState :=
  match res with
  | .ok rows => { st with chain := rows }
  | .error _ => { st with chain := [] }

/-- The success path of `loadChainFromDB` as invoked after a write: the query
returns the store's rows ordered by `block_number` ascending. -/
def reloadChain (st : NodeState) : NodeState :=
  { st with chain := sortByNumber st.store }

/-- `Blockchain.getLatestBlock` (lines 36-42): the last element of the
in-memory chain, or null when it is empty. -/
def getLatestBlock (st : NodeState) : Option Row := st.chain.getLast?

end Blockchain

/-- The observable outcome of `Blockchain.addBlock`: a fresh insert, an
`ON CONFLICT (block_hash) DO NOTHING` no-op (rowCount 0, no error raised), or
a caught database error (constraint violation). The JavaScript method maps the
last two to `false`. -/
inductive AddResult where
  | inserted
  | conflict
  | dbError
deriving DecidableEq

/-- `Blockchain.addBlock` (`services/blockchain.js` lines 45-122). The removed
sequence check (lines 46-48 of the source, commented out) is faithfully
absent: no comparison of `previous_hash` against the tip happens here. The
essential-field guard rejects a falsy `block_hash`; the insert succeeds unless
the `block_hash` conflict key fires (DO NOTHING) or a table constraint raises;
on success the chain is reloaded from the store; on conflict the chain is
reloaded only when the conflicting hash is missing from the in-memory copy. -/
def Blockchain.addBlock (st : NodeState) (row : Row) : AddResult × NodeState :=
  if row.block_hash = "" then (.dbError, st)
  else if hashExists st.store row.block_hash then
    let st' := if st.chain.any (fun b => b.block_hash == row.block_hash) then st
               else Blockchain.reloadChain st
    (.conflict, st')
  else if rowChecks row && !numberExists st.store row.block_number then
    (.inserted, Blockchain.reloadChain { st with store := st.store ++ [row] })
  else (.dbError, st)


/-! ## The two-phase commit route (`blockchain-validator.js`,
`router.post('/commit')`, lines 1077-1197) -/

/-- The commit payload after the `validateCommitBlock` express-validator
middleware: hex fields decoded to byte lists, `nonce` (a string-encoded
integer on the wire) and `difficulty` as naturals, `created_at_iso` the
ISO-8601 timestamp string. -/
structure CommitPayload where
  creator_id : String
  previous_hash : Option String
  block_hash : String
  nonce : Nat
  difficulty : Nat
  encrypted_data : List Nat
  data_iv : List Nat
  encrypted_data_key : List Nat
  data_size : Nat
  signature : List Nat
  created_at_iso : String
  mining_duration_ms : Nat
deriving DecidableEq

/-- JavaScript `String.prototype.startsWith`, over the character lists (the
hash strings are ASCII, one char per code unit). -/
def jsStartsWith (s pre : String) : Bool := pre.data.isPrefixOf s.data

/-- `SELECT ... FROM blockchain.creators WHERE creator_id = $1 AND
is_active = true`. -/
def findCreator (creators : List Creator) (cid : String) : Option Creator :=
  creators.find? (fun c => c.creator_id == cid && c.is_active)

/-- The observable outcome of the commit route: the 404 creator error, the two
`BlockchainError` rejections, the 201 committed response, or the 200 fallback
response carrying the block looked up by `block_hash` (if any). -/
inductive CommitResult where
  | creatorMissing
  | signatureInvalid
  | powFailed
  | committed (block : Row)
  | alreadyExisted (existing : Option Row)
deriving DecidableEq

/-- The `newBlockData` object the commit route builds (lines 1132-1147):
`previous_hash` is the hash determined from the current in-memory tip - not
the payload's - `block_number` is tip + 1 (or 1), `verified`/`verified_at`
take the table defaults, and `created_at` is `new Date(created_at_iso)`,
modelled by the `parseDate` primitive. -/
def mkCommitRow (st : NodeState) (parseDate : String → Nat) (freshId : String)
    (p : CommitPayload) : Row :=
  let lastBlock := Blockchain.getLatestBlock st
  { block_id := freshId
    block_number := match lastBlock with | some b => b.block_number + 1 | none => 1
    creator_id := some p.creator_id
    previous_hash := lastBlock.map Row.block_hash
    block_hash := p.block_hash
    nonce := p.nonce
    difficulty := p.difficulty
    encrypted_data := p.encrypted_data
    data_iv := p.data_iv
    encrypted_data_key := p.encrypted_data_key
    data_size := p.data_size
    signature := p.signature
    created_at := parseDate p.created_at_iso
    mining_duration_ms := some p.mining_duration_ms
    verified := false
    verified_at := none }

/-- `router.post('/commit')` (`blockchain-validator.js` lines 1077-1197): look
up the active creator, verify the signature over the ASCII `block_hash`, check
the proof-of-work prefix, rebuild the row from the current tip and append it
through `Blockchain.addBlock`; when `addBlock` reports anything but an insert,
answer 200 with the block found under the payload's `block_hash`. The route
performs no recomputation of the canonical hash and no comparison of the
payload's `previous_hash` with the tip. -/
def commitBlock (st : NodeState) (creators : List Creator) (raw : RawVerify)
    (parseDate : String → Nat) (freshId : String) (p : CommitPayload) :
    CommitResult × NodeState :=
  match findCreator creators p.creator_id with
  | none => (.creatorMissing, st)
  | some c =>
    if !(CryptoUtils.verifySignature raw c.public_key_pem p.block_hash p.signature) then
      (.signatureInvalid, st)
    else if !(jsStartsWith p.block_hash (zeros p.difficulty)) then
      (.powFailed, st)
    else
      let newRow := mkCommitRow st parseDate freshId p
      match Blockchain.addBlock st newRow with
      | (.inserted, st') => (.committed newRow, st')
      | (_, st') => (.alreadyExisted (findByHash st'.store p.block_hash), st')

/-- The verdict of the `block_chain_protect` BEFORE UPDATE OR DELETE trigger. -/
inductive TriggerResult where
  | allowed (updated : Row)
  | rejected (msg : String)
deriving DecidableEq

/-- `prevent_blockchain_tampering` on an UPDATE: the function returns NEW
whenever `OLD.verified IS DISTINCT FROM NEW.verified`, and raises otherwise.
No other column is inspected. -/
def prevent_blockchain_tampering_update (old updated : Row) : TriggerResult :=
  if old.verified ≠ updated.verified then .allowed updated
  else .rejected ("block_chain is append-only: UPDATE prohibited, except for verified status.")

/-- `prevent_blockchain_tampering` on a DELETE: always raises. -/
def prevent_blockchain_tampering_delete (_old : Row) : TriggerResult :=
  .rejected ("block_chain is append-only: DELETE prohibited.")

/-! ## Chain replacement (`services/blockchain.js` lines 125-207) -/

/-- A block as received over the peer protocol: buffers may arrive as the
JSON `Buffer` envelope or be absent, `block_id` may be missing, `verified`
and `verified_at` may be carried along. -/
structure P2PBlock where
  block_id : Option String
  block_number : Nat
  creator_id : Option String
  previous_hash : Option String
  block_hash : String
  nonce : Nat
  difficulty : Nat
  encrypted_data : Option (List Nat)
  data_iv : Option (List Nat)
  encrypted_data_key : Option (List Nat)
  data_size : Nat
  signature : Option (List Nat)
  created_at : Nat
  mining_duration_ms : Option Nat
  verified : Bool
  verified_at : Option Nat
deriving DecidableEq

/-- JavaScript `x || null` on a nullable string: the empty string collapses
to null. -/
def jsFalsyToNone (o : Option String) : Option String :=
  match o with
  | none => none
  | some s => if s = "" then none else some s

/-- The per-block coercion `replaceChain` performs before inserting (lines
153-168): `Buffer.from(x?.data || [])` on the binary fields, `|| null` on
`previous_hash`, `|| false` on `verified`, and a fresh `block_id` when the
received block carries none (`idGen` models `crypto.randomUUID`, indexed by
the block's position). -/
def coerceP2P (idGen : Nat → String) (i : Nat) (b : P2PBlock) : Row :=
  { block_id := b.block_id.getD (idGen i)
    block_number := b.block_number
    creator_id := b.creator_id
    previous_hash := jsFalsyToNone b.previous_hash
    block_hash := b.block_hash
    nonce := b.nonce
    difficulty := b.difficulty
    encrypted_data := b.encrypted_data.getD []
    data_iv := b.data_iv.getD []
    encrypted_data_key := b.encrypted_data_key.getD []
    data_size := b.data_size
    signature := b.signature.getD []
    created_at := b.created_at
    mining_duration_ms := b.mining_duration_ms
    verified := b.verified
    verified_at := b.verified_at }

/-- All coerced rows of a candidate chain, in candidate order. -/
def coerceAll (idGen : Nat → String) (cand : List P2PBlock) : List Row :=
  cand.enum.map (fun ib => coerceP2P idGen ib.1 ib.2)

/-- The loop of plain `INSERT`s inside the replacement transaction: insert the
rows in order into an emptied table; the first constraint violation (CHECK
constraints, or a UNIQUE conflict among the candidate's own rows - these
inserts carry no `ON CONFLICT` clause) aborts with an error. -/
def insertAll (store : List Row) : List Row → Option (List Row)
  | [] => some store
  | r :: rs =>
    if rowChecks r && !hashExists store r.block_hash && !numberExists store r.block_number
    then insertAll (store ++ [r]) rs
    else none

/-- `DELETE FROM blockchain.blocks` as the replacement transaction issues it:
the statement runs under the `block_chain_protect` BEFORE DELETE FOR EACH ROW
trigger, whose function raises for every row it visits, so the delete succeeds
(vacuously) only on an already-empty table and raises otherwise. -/
def deleteAllRows (store : List Row) : Option (List Row) :=
  match store with
  | [] => some []
  | r :: _ =>
    match prevent_blockchain_tampering_delete r with
    | .allowed _ => some []
    | .rejected _ => none

/-- `Blockchain.replaceChain` (lines 125-207): a candidate not strictly longer
than the in-memory chain is ignored; otherwise, inside one transaction, delete
every row and insert the coerced candidate rows in order; on success commit
and reload the in-memory chain from the store; on any failure - the delete
raising under the append-only trigger, or an insert violating a constraint -
roll the transaction back, leaving store and chain as they were. -/
def Blockchain.replaceChain (st : NodeState) (newChain : List P2PBlock)
    (idGen : Nat → String) : NodeState :=
  if newChain.length ≤ st.chain.length then st
  else
    match deleteAllRows st.store with
    | none => st
    | some emptied =>
      match insertAll emptied (coerceAll idGen newChain) with
      | some store' => { store := store', chain := sortByNumber store' }
      | none => st

/-! ## The periodic verifier's pending query (`services/verifier.js`
lines 57-81) -/

/-- The WHERE clause of the pending query: `verified = false AND created_at <
NOW() - INTERVAL timeoutMs milliseconds` (timestamps as epoch milliseconds,
the inequality written addition-side to stay in `Nat`). -/
def pendingWhere (now timeoutMs : Nat) (r : Row) : Bool :=
  !r.verified && decide (r.created_at + timeoutMs < now)

/-- The row selection of `verifyPendingBlocks`: the pending rows, `ORDER BY
created_at ASC`, `LIMIT 10`; the verification loop then walks this list
front to back. -/
def verifyPendingSelection (store : List Row) (now timeoutMs : Nat) : List Row :=
  (sortByCreated (store.filter (pendingWhere now timeoutMs))).take 10

/-! ## Concrete fixtures for counterexamples and witnesses -/

/-- A 64-character lowercase-hex-shaped string with one leading zero: a
proof-of-work hash of difficulty 1. -/
def mkHash (c : Char) : String := String.mk ('0' :: List.replicate 63 c)

/-- An active demo creator. -/
def demoCreator : Creator :=
  { creator_id := "c-1", display_name := "alice", public_key_pem := "PK", is_active := true }

/-- A stored genesis row with hash `mkHash 'a'`. -/
def demoGenesisRow : Row :=
  { block_id := "b-1", block_number := 1, creator_id := some "c-1", previous_hash := none
    block_hash := mkHash ('a'), nonce := 7, difficulty := 1
    encrypted_data := [1], data_iv := [2], encrypted_data_key := [3], data_size := 1
    signature := [4], created_at := 100, mining_duration_ms := some 5
    verified := false, verified_at := none }

/-- A node whose store and in-memory chain both hold exactly the genesis row:
the current tip is `demoGenesisRow`. -/
def demoState : NodeState := { store := [demoGenesisRow], chain := [demoGenesisRow] }

/-- A raw signature verifier that accepts (the payload passed the signature
check). -/
def rawOk : RawVerify := fun _ _ _ => .ok true

/-- A raw signature verifier that throws, as `crypto.createVerify` does on a
malformed public key PEM. -/
def rawThrows : RawVerify := fun _ _ _ => .thrown ("error:0909006C:PEM routines:get_name:no start line")

/-- A fixed `new Date(iso)` parse result. -/
def demoParseDate : String → Nat := fun _ => 500

/-- A commit payload prepared against the stale tip `mkHash 'b'`: its
`previous_hash` differs from the current tip's hash and from the genesis
sentinel; it passes the signature and difficulty-1 proof-of-work checks. -/
def demoStalePayload : CommitPayload :=
  { creator_id := "c-1", previous_hash := some (mkHash ('b')), block_hash := mkHash ('c')
    nonce := 9, difficulty := 1, encrypted_data := [1], data_iv := [2]
    encrypted_data_key := [3], data_size := 1, signature := [4]
    created_at_iso := "2024-01-01T00:00:00.000Z", mining_duration_ms := 3 }

/-- A re-submission of the already-appended genesis commit: same `block_hash`
as the stored row. -/
def demoDupPayload : CommitPayload :=
  { creator_id := "c-1", previous_hash := none, block_hash := mkHash ('a')
    nonce := 7, difficulty := 1, encrypted_data := [1], data_iv := [2]
    encrypted_data_key := [3], data_size := 1, signature := [4]
    created_at_iso := "2024-01-01T00:00:00.000Z", mining_duration_ms := 3 }

/-- An update image that flips `verified` and also rewrites `block_hash`. -/
def demoTamperedRow : Row := { demoGenesisRow with verified := true, block_hash := mkHash ('e') }

/-- An update image that changes only `verified_at`, leaving `verified` as it
was - the shape of the verifier's own failed-verification update. -/
def demoTouchVerifiedAt : Row := { demoGenesisRow with verified_at := some 900 }

/-- Hash-input data with a non-null previous hash. -/
def demoHashData : HashBlockData :=
  { previous_hash := some (mkHash ('a')), encrypted_data := [171], data_iv := [18]
    encrypted_data_key := [52], nonce := 7
    created_at := "2024-01-01T00:00:00.000Z", creator_id := some "c-1", difficulty := 4 }

/-! ## Claim C3 - the append-only trigger -/

/-- Claim C3: the claim reads: once appended, deletions always fail and updates fail
unless they change only `(verified, verified_at)`. The trigger diverges from
this (and from its own comment): it admits an update that flips `verified` and
simultaneously rewrites `block_hash`, and it rejects an update that changes
only `verified_at` while leaving `verified` alone - the very update the
verifier issues when a block fails re-verification. Deletions are indeed
always rejected. -/
theorem C3_trigger_divergence :
    prevent_blockchain_tampering_update demoGenesisRow demoTamperedRow = .allowed demoTamperedRow ∧
    demoTamperedRow.block_hash ≠ demoGenesisRow.block_hash ∧
    demoTamperedRow.verified ≠ demoGenesisRow.verified ∧
    prevent_blockchain_tampering_update demoGenesisRow demoTouchVerifiedAt
      = .rejected ("block_chain is append-only: UPDATE prohibited, except for verified status.") ∧
    demoTouchVerifiedAt.verified = demoGenesisRow.verified ∧
    demoTouchVerifiedAt.block_hash = demoGenesisRow.block_hash ∧
    prevent_blockchain_tampering_delete demoGenesisRow
      = .rejected ("block_chain is append-only: DELETE prohibited.") := by
  decide

/-! ## Claim C4 - the canonical hash input -/

/-- Claim C4, corrected: `CryptoUtils.buildHashInput` does produce the pipe-joined
canonical string of §4.2 (given that a present `previous_hash` is not the
empty string, where the JavaScript `||` would also substitute the sentinel),
and `calculateHash` of it is the lowercase-hex SHA-256 of its UTF-8 bytes.
The copy in `blockchain-validator.js` does not (see the counterexample). -/
theorem C4_cryptoUtils_matches_spec (b : HashBlockData) (h : b.previous_hash ≠ some "") :
    CryptoUtils.buildHashInput b = specCanonicalHashInput b ∧
    CryptoUtils.calculateHash (CryptoUtils.buildHashInput b)
      = bytesToHexLower (sha256 (asciiBytes (specCanonicalHashInput b))) := by
  have h1 : CryptoUtils.buildHashInput b = specCanonicalHashInput b := by
    unfold CryptoUtils.buildHashInput specCanonicalHashInput jsOrDefault joinElem
    cases hp : b.previous_hash with
    | none => rfl
    | some s =>
      have hs : ¬ s = "" := by
        intro hempty
        exact h (by rw [hp, hempty])
      simp [hs]
  exact ⟨h1, by rw [h1]; rfl⟩

/-- Claim C4 counterexample: the hash input built by `BlockchainValidator.buildHashInput`
(`blockchain-validator.js` lines 171-182, `join('')`) is not the pipe-joined
canonical string of §4.2 at a concrete block candidate. -/
theorem C4_validator_deviates :
    BlockchainValidator.buildHashInput demoHashData ≠ specCanonicalHashInput demoHashData := by
  decide

/-- Claim C4 witness: the corrected statement evaluated at a concrete block
candidate. -/
theorem C4_witness :
    CryptoUtils.buildHashInput demoHashData = specCanonicalHashInput demoHashData ∧
    CryptoUtils.calculateHash (CryptoUtils.buildHashInput demoHashData)
      = bytesToHexLower (sha256 (asciiBytes (specCanonicalHashInput demoHashData))) :=
  C4_cryptoUtils_matches_spec demoHashData (by decide)

/-! ## Claim C5 - shorter candidates never replace -/

/-- Claim C5: a candidate chain not strictly longer than the current in-memory chain
leaves the node state - store and in-memory chain alike - unchanged, and
conversely any run of `replaceChain` that changes anything was given a
strictly longer candidate. -/
theorem C5_replace_ignores_shorter (st : NodeState) (cand : List P2PBlock) (idGen : Nat → String) :
    (cand.length ≤ st.chain.length → Blockchain.replaceChain st cand idGen = st) ∧
    (Blockchain.replaceChain st cand idGen ≠ st → st.chain.length < cand.length) := by
  constructor
  · intro h
    unfold Blockchain.replaceChain
    rw [if_pos h]
  · intro hne
    by_contra hlen
    push_neg at hlen
    exact hne (by unfold Blockchain.replaceChain; rw [if_pos hlen])

/-- Claim C5 witness: a two-block candidate against a two-block chain is ignored. -/
theorem C5_witness :
    Blockchain.replaceChain
      { store := [demoGenesisRow, demoTamperedRow], chain := [demoGenesisRow, demoTamperedRow] }
      [] (fun _ => "p2p-0")
    = { store := [demoGenesisRow, demoTamperedRow], chain := [demoGenesisRow, demoTamperedRow] } :=
  (C5_replace_ignores_shorter
    { store := [demoGenesisRow, demoTamperedRow], chain := [demoGenesisRow, demoTamperedRow] }
    [] (fun _ => "p2p-0")).1 (by decide)

/-! ## Claim C9 - failed chain load resets the in-memory view -/

/-- Claim C9: when the `loadChainFromDB` query fails, the catch block resets the
in-memory chain to the empty array - it does not keep the previous contents -
so `getLatestBlock` afterwards returns null even while the store still holds
rows. -/
theorem C9_load_failure_resets (st : NodeState) (e : String) (hstore : st.store ≠ []) :
    (Blockchain.loadChainFromDB st (.error e)).chain = [] ∧
    Blockchain.getLatestBlock (Blockchain.loadChainFromDB st (.error e)) = none ∧
    (Blockchain.loadChainFromDB st (.error e)).store = st.store := by
  exact ⟨rfl, rfl, rfl⟩

/-- Claim C9 witness: the reset observed on a node whose store holds the genesis
row. -/
theorem C9_witness :
    (Blockchain.loadChainFromDB demoState (.error ("connection terminated"))).chain = [] ∧
    Blockchain.getLatestBlock (Blockchain.loadChainFromDB demoState (.error ("connection terminated"))) = none ∧
    (Blockchain.loadChainFromDB demoState (.error ("connection terminated"))).store = demoState.store :=
  C9_load_failure_resets demoState ("connection terminated") (by decide)

/-! ## The successful append path of the commit route -/

/-- Claim C8: when the payload's `block_hash` is already stored (and the in-memory
chain holds it too), `addBlock` takes the `ON CONFLICT DO NOTHING` branch -
the `conflict` outcome, not a raised error - the node state is unchanged, and
the commit route answers with the existing block looked up under that hash. -/
theorem C8_duplicate_returns_existing
    (st : NodeState) (creators : List Creator) (raw : RawVerify)
    (pd : String → Nat) (fid : String) (p : CommitPayload) (c : Creator)
    (hc : findCreator creators p.creator_id = some c)
    (hsig : CryptoUtils.verifySignature raw c.public_key_pem p.block_hash p.signature = true)
    (hpow : jsStartsWith p.block_hash (zeros p.difficulty) = true)
    (hne : p.block_hash ≠ "")
    (hdup : hashExists st.store p.block_hash = true)
    (hmem : st.chain.any (fun b => b.block_hash == p.block_hash) = true) :
    Blockchain.addBlock st (mkCommitRow st pd fid p) = (.conflict, st) ∧
    commitBlock st creators raw pd fid p
      = (.alreadyExisted (findByHash st.store p.block_hash), st) ∧
    (findByHash st.store p.block_hash).isSome = true := by
  have hbh : (mkCommitRow st pd fid p).block_hash = p.block_hash := rfl
  have hadd : Blockchain.addBlock st (mkCommitRow st pd fid p) = (.conflict, st) := by
    unfold Blockchain.addBlock
    rw [hbh]
    simp [hne, hdup, hmem]
  refine ⟨hadd, ?_, ?_⟩
  · unfold commitBlock
    rw [hc]
    simp only [hsig, Bool.not_true, Bool.false_eq_true, if_false]
    simp only [hpow, Bool.not_true, Bool.false_eq_true, if_false]
    rw [hadd]
  · unfold findByHash
    unfold hashExists at hdup
    rw [List.any_eq_true] at hdup
    obtain ⟨r, hr, hpr⟩ := hdup
    have : ∃ x, x ∈ st.store ∧ (x.block_hash == p.block_hash) = true := ⟨r, hr, hpr⟩
    rw [List.find?_isSome]
    exact this

/-- Claim C8 witness: re-submitting the already-appended genesis commit returns the
stored genesis row; the state is untouched. -/
theorem C8_witness :
    Blockchain.addBlock demoState (mkCommitRow demoState demoParseDate ("b-4") demoDupPayload)
      = (.conflict, demoState) ∧
    commitBlock demoState [demoCreator] rawOk demoParseDate ("b-4") demoDupPayload
      = (.alreadyExisted (findByHash demoState.store demoDupPayload.block_hash), demoState) ∧
    (findByHash demoState.store demoDupPayload.block_hash).isSome = true :=
  C8_duplicate_returns_existing demoState [demoCreator] rawOk demoParseDate ("b-4") demoDupPayload
    demoCreator (by decide) (by decide) (by decide) (by decide) (by decide) (by decide)

/-! ## Claim C10 - totality of the signature check -/

/-- Claim C10: `verifySignature` wraps the raw Node verifier in try/catch: whatever
the raw verifier throws - a malformed public key PEM, a malformed signature -
the wrapper returns false rather than propagating, so a commit whose raw
verification throws terminates with the signature-invalid response instead of
aborting, leaving the state untouched. -/
theorem C10_signature_check_total
    (st : NodeState) (creators : List Creator) (raw : RawVerify)
    (pd : String → Nat) (fid : String) (p : CommitPayload) (c : Creator) (m : String)
    (hc : findCreator creators p.creator_id = some c)
    (hthrow : raw c.public_key_pem p.block_hash p.signature = .thrown m) :
    CryptoUtils.verifySignature raw c.public_key_pem p.block_hash p.signature = false ∧
    commitBlock st creators raw pd fid p = (.signatureInvalid, st) := by
  have h1 : CryptoUtils.verifySignature raw c.public_key_pem p.block_hash p.signature = false := by
    unfold CryptoUtils.verifySignature
    rw [hthrow]
  refine ⟨h1, ?_⟩
  unfold commitBlock
  rw [hc]
  simp [h1]

/-- Claim C10 witness: a raw verifier that throws the OpenSSL bad-PEM error makes
the commit answer signature-invalid with the state untouched. -/
theorem C10_witness :
    CryptoUtils.verifySignature rawThrows demoCreator.public_key_pem
      demoStalePayload.block_hash demoStalePayload.signature = false ∧
    commitBlock demoState [demoCreator] rawThrows demoParseDate ("b-5") demoStalePayload
      = (.signatureInvalid, demoState) :=
  C10_signature_check_total demoState [demoCreator] rawThrows demoParseDate ("b-5") demoStalePayload
    demoCreator ("error:0909006C:PEM routines:get_name:no start line") (by decide) (by decide)

/-! ## Claim C6 - atomicity of chain replacement -/

/-- The transactional insert loop only ever succeeds with exactly the rows it
was given appended, in order. -/
theorem insertAll_eq_append (l : List Row) :
    ∀ acc out : List Row, insertAll acc l = some out → out = acc ++ l := by
  induction l with
  | nil =>
    intro acc out h
    unfold insertAll at h
    simp at h
    simp [h]
  | cons r rs ih =>
    intro acc out h
    unfold insertAll at h
    by_cases hcond :
        (rowChecks r && !hashExists acc r.block_hash && !numberExists acc r.block_number) = true
    · rw [if_pos hcond] at h
      have := ih (acc ++ [r]) out h
      simp [this]
    · rw [if_neg hcond] at h
      exact absurd h (by simp)

/-- Claim C6: for a strictly longer candidate, `replaceChain` is transactional
and all-or-nothing. The delete-all step runs under the append-only trigger,
whose function raises for every existing row: from a nonempty store the
transaction therefore always rolls back, leaving the prior state - store and
chain - intact. From an empty store, the only one whose delete succeeds, the
insert loop decides the transaction: when every insert succeeds the store
afterwards is exactly the coerced candidate chain (and the in-memory chain its
by-number ordering); when any insert fails the rollback leaves the prior state
intact. -/
theorem C6_replace_atomic (st : NodeState) (cand : List P2PBlock) (idGen : Nat → String)
    (hlong : st.chain.length < cand.length) :
    (st.store = [] →
      ((insertAll [] (coerceAll idGen cand)).isSome = true →
        (Blockchain.replaceChain st cand idGen).store = coerceAll idGen cand ∧
        (Blockchain.replaceChain st cand idGen).chain = sortByNumber (coerceAll idGen cand)) ∧
      (insertAll [] (coerceAll idGen cand) = none →
        Blockchain.replaceChain st cand idGen = st)) ∧
    (st.store ≠ [] → Blockchain.replaceChain st cand idGen = st) := by
  have hif : ¬ (cand.length ≤ st.chain.length) := Nat.not_le.mpr hlong
  constructor
  · intro hempty
    constructor
    · intro hsome
      obtain ⟨out, hout⟩ := Option.isSome_iff_exists.mp hsome
      have heq : out = [] ++ coerceAll idGen cand := insertAll_eq_append _ _ _ hout
      simp at heq
      unfold Blockchain.replaceChain
      rw [if_neg hif, hempty]
      simp [deleteAllRows, hout, heq]
    · intro hnone
      unfold Blockchain.replaceChain
      rw [if_neg hif, hempty]
      simp [deleteAllRows, hnone]
  · intro hne
    obtain ⟨r, t, hrt⟩ := List.exists_cons_of_ne_nil hne
    unfold Blockchain.replaceChain
    rw [if_neg hif, hrt]
    rfl

/-- A genesis-shaped block received over the peer protocol. -/
def demoP2PBlock : P2PBlock :=
  { block_id := none, block_number := 1, creator_id := some "c-1", previous_hash := none
    block_hash := mkHash ('f'), nonce := 3, difficulty := 1
    encrypted_data := some [9], data_iv := some [8], encrypted_data_key := some [7]
    data_size := 1, signature := some [6], created_at := 100
    mining_duration_ms := none, verified := false, verified_at := none }

/-- The model of `crypto.randomUUID` handing out position-indexed ids. -/
def demoIdGen : Nat → String := fun n => "p2p-" ++ toString n

/-- Claim C6 witness: replacing an empty node's chain with a one-block
candidate leaves the store equal to the coerced candidate; against the
nonempty demo store the delete raises and the transaction rolls back, leaving
the state untouched. -/
theorem C6_witness :
    ((Blockchain.replaceChain { store := [], chain := [] } [demoP2PBlock] demoIdGen).store
        = coerceAll demoIdGen [demoP2PBlock] ∧
     (Blockchain.replaceChain { store := [], chain := [] } [demoP2PBlock] demoIdGen).chain
        = sortByNumber (coerceAll demoIdGen [demoP2PBlock])) ∧
    Blockchain.replaceChain demoState [demoP2PBlock, demoP2PBlock] demoIdGen = demoState :=
  ⟨((C6_replace_atomic { store := [], chain := [] } [demoP2PBlock] demoIdGen (by decide)).1
      rfl).1 (by decide),
   (C6_replace_atomic demoState [demoP2PBlock, demoP2PBlock] demoIdGen (by decide)).2 (by decide)⟩

/-! ## Claim C7 - the verifier's batch order -/

/-- Claim C7, corrected: each tick reads at most 10 pending rows - `verified =
false`, `created_at` older than the minimum age - and walks them in ascending
`created_at` order: that, not ascending `block_number`, is the `ORDER BY` of
the query in `services/verifier.js`. -/
theorem C7_verifier_reads_by_created_at (store : List Row) (now tm : Nat) :
    (verifyPendingSelection store now tm).length ≤ 10 ∧
    (∀ r ∈ verifyPendingSelection store now tm,
      r.verified = false ∧ r.created_at + tm < now) ∧
    List.Sorted createdLe (verifyPendingSelection store now tm) := by
  unfold verifyPendingSelection
  refine ⟨List.length_take_le _ _, ?_, ?_⟩
  · intro r hr
    have hr1 : r ∈ sortByCreated (store.filter (pendingWhere now tm)) :=
      List.take_subset _ _ hr
    have hr2 : r ∈ store.filter (pendingWhere now tm) := by
      unfold sortByCreated at hr1
      exact (List.perm_insertionSort createdLe _).mem_iff.mp hr1
    have hp := (List.mem_filter.mp hr2).2
    unfold pendingWhere at hp
    simp only [Bool.and_eq_true, Bool.not_eq_true', decide_eq_true_eq] at hp
    exact hp
  · have hs : List.Sorted createdLe (sortByCreated (store.filter (pendingWhere now tm))) := by
      unfold sortByCreated
      exact List.sorted_insertionSort createdLe _
    exact List.Pairwise.sublist (List.take_sublist 10 _) hs

/-- An unverified stored block numbered 1 but created later. -/
def demoPendA : Row :=
  { demoGenesisRow with block_id := "p-1", block_number := 1, block_hash := mkHash ('g')
                        created_at := 200 }

/-- An unverified stored block numbered 2 but created earlier. -/
def demoPendB : Row :=
  { demoGenesisRow with block_id := "p-2", block_number := 2
                        previous_hash := some (mkHash ('g')), block_hash := mkHash ('h')
                        created_at := 100 }

/-- A store holding the two pending rows in block-number order. -/
def demoPendStore : List Row := [demoPendA, demoPendB]

/-- Claim C7 counterexample: with two pending blocks whose `created_at` order
opposes their `block_number` order, the verifier's batch is block 2 before
block 1 - not the ascending `block_number` order the claim states. -/
theorem C7_counterexample :
    (verifyPendingSelection demoPendStore 1000000 60000).map Row.block_number = [2, 1] ∧
    ¬ List.Sorted Nat.le
        ((verifyPendingSelection demoPendStore 1000000 60000).map Row.block_number) := by
  have hmap : (verifyPendingSelection demoPendStore 1000000 60000).map Row.block_number
      = [2, 1] := by decide
  refine ⟨hmap, ?_⟩
  rw [hmap]
  intro h
  have h21 := List.rel_of_sorted_cons h 1 (by simp)
  exact absurd h21 (Nat.not_succ_le_self 1)

/-- Claim C7 witness: the corrected statement at the two-row store. -/
theorem C7_witness :
    (verifyPendingSelection demoPendStore 1000000 60000).length ≤ 10 ∧
    (∀ r ∈ verifyPendingSelection demoPendStore 1000000 60000,
      r.verified = false ∧ r.created_at + 60000 < 1000000) ∧
    List.Sorted createdLe (verifyPendingSelection demoPendStore 1000000 60000) :=
  C7_verifier_reads_by_created_at demoPendStore 1000000 60000
